import Mathlib

/-! Session layer of cassandra-data-apis (package `db`).

A shallow embedding of `db/session.go`: the query options builder, the
result-set construction loop and the three execution entry points of
`GoCqlSession`, together with the `Db` forwarding methods.

The gocql driver is an external collaborator.  It is represented by

* a `gocql.Query` record that remembers which setters were called on the
  statement under construction (`none` = the setter was never called, so the
  driver default applies),
* a `gocql.Session` whose two network operations (running a statement and
  waiting for schema agreement) answer as a function of the history of
  driver calls, and
* a chronological log of driver calls (`gocql.Event`) threaded through every
  operation.
-/

set_option autoImplicit false

/-! ## Go values -/

/-- A Go `interface{}` value used as a bound statement parameter.  A value may
itself be a `[]interface{}` slice. -/
inductive Value where
  | int (i : Int)
  | text (s : String)
  | slice (vs : List Value)

/-- A Go `context.Context` that is not nil. -/
structure Ctx where
  id : Nat
  deriving DecidableEq, Repr

/-- An error value produced outside `ExecuteIter` (by the driver or by the row
mapping); only its message is kept. -/
structure DriverError where
  msg : String
  deriving DecidableEq, Repr

/-- Go error values seen by callers of the session.  `errors.New` yields a
fresh value at every call, so the error built in `ExecuteIter` is a value of
its own, different from every error handed back by the driver or the row
mapping. -/
inductive GoError where
  /-- The value of `errors.New("Invalid serial consistency")`. -/
  | invalidSerialConsistency
  /-- Any error value that originates elsewhere. -/
  | other (e : DriverError)
  deriving DecidableEq, Repr

/-- The message carried by an error value. -/
def GoError.Error : GoError → String
  | .invalidSerialConsistency => "Invalid serial consistency"
  | .other e => e.msg

/-! ## The gocql driver -/

namespace gocql

/-- The driver type `gocql.Consistency` (a `uint16`). -/
abbrev Consistency := Nat

/-- The driver type `gocql.SerialConsistency` (a `uint16`). -/
abbrev SerialConsistency := Nat

def LocalOne : Consistency := 0x0A
def Serial : SerialConsistency := 0x08
def LocalSerial : SerialConsistency := 0x09

/-- CQL column types that occur in the numeric type-mapping test. -/
inductive CqlType where
  | TypeBigInt
  | TypeFloat
  | TypeDouble
  | TypeSmallInt
  | TypeTinyInt
  | TypeDecimal
  deriving DecidableEq, Repr

/-- The driver record `gocql.ColumnInfo`, reduced to name and type. -/
structure ColumnInfo where
  Name : String
  TypeInfo : CqlType
  deriving DecidableEq, Repr

/-- A statement under construction.  Every optional field records whether the
corresponding setter has been called and with which argument. -/
structure Query where
  stmt : String
  values : List Value
  disableSkipMetadata : Bool
  cons : Option Consistency
  serialCons : Option SerialConsistency
  pageSize : Option Int
  pageState : Option (Option (List UInt8))
  customPayload : Option (List (String × List UInt8))

def Query.NoSkipMetadata (q : Query) : Query :=
  { q with disableSkipMetadata := true }

def Query.Consistency (q : Query) (c : Consistency) : Query :=
  { q with cons := some c }

def Query.SerialConsistency (q : Query) (c : SerialConsistency) : Query :=
  { q with serialCons := some c }

def Query.PageSize (q : Query) (n : Int) : Query :=
  { q with pageSize := some n }

def Query.PageState (q : Query) (state : Option (List UInt8)) : Query :=
  { q with pageState := some state }

def Query.CustomPayload (q : Query) (payload : List (String × List UInt8)) : Query :=
  { q with customPayload := some payload }

/-- A value as the driver holds it for one cell of a result row. -/
inductive Cell where
  | int (bits : Nat) (v : Int)
  | float (bits : Nat) (repr : Nat)
  | decimal (unscaled : Int) (scale : Int)
  deriving DecidableEq, Repr

/-- One scanned row: a cell per column, `none` where no value is stored. -/
abbrev RawRow := List (Option Cell)

/-- The outcome of running a statement, as observed through `gocql.Iter`:
the columns, the rows for which `scanner.Next()` reports true (in order),
the result of `Close()` and the continuation token. -/
structure Iter where
  columns : List ColumnInfo
  rows : List RawRow
  closeErr : Option DriverError
  pageState : Option (List UInt8)

def Iter.Columns (iter : Iter) : List ColumnInfo := iter.columns
def Iter.Close (iter : Iter) : Option DriverError := iter.closeErr
def Iter.PageState (iter : Iter) : Option (List UInt8) := iter.pageState

/-- A call that reaches the cluster. -/
inductive Event where
  | iter (q : Query)
  | awaitSchemaAgreement (ctx : Ctx)

def Event.isIter : Event → Bool
  | .iter _ => true
  | .awaitSchemaAgreement _ => false

def Event.isAwait : Event → Bool
  | .iter _ => false
  | .awaitSchemaAgreement _ => true

/-- The connected driver session: its configured default page size and the
cluster's answers, which may depend on everything sent so far. -/
structure Session where
  cfgPageSize : Int
  run : List Event → Query → Iter
  agree : List Event → Ctx → Option DriverError

/-- The call `session.Query(stmt, values...)`: a fresh statement on which no
setter has been called. -/
def Session.Query (_s : Session) (stmt : String) (values : List Value) : Query :=
  { stmt := stmt, values := values, disableSkipMetadata := false, cons := none,
    serialCons := none, pageSize := none, pageState := none, customPayload := none }

/-- The call `q.Iter()`: the statement is sent to the cluster. -/
def Query.Iter (s : Session) (q : Query) (log : List Event) : Iter × List Event :=
  (s.run log q, log ++ [Event.iter q])

/-- The call `session.AwaitSchemaAgreement(ctx)`. -/
def Session.AwaitSchemaAgreement (s : Session) (ctx : Ctx) (log : List Event) :
    Option DriverError × List Event :=
  (s.agree log ctx, log ++ [Event.awaitSchemaAgreement ctx])

/-- The page size the cluster applies to a statement. -/
def Query.effectivePageSize (s : Session) (q : Query) : Int :=
  q.pageSize.getD s.cfgPageSize

end gocql

/-! ## Package db -/

namespace db

/-- The struct `QueryOptions`.  A nil `[]byte` and a nil context are `none`. -/
structure QueryOptions where
  UserOrRole : String
  Consistency : gocql.Consistency
  SerialConsistency : gocql.SerialConsistency
  PageState : Option (List UInt8)
  PageSize : Int
  Context : Option Ctx
  deriving DecidableEq, Repr

def NewQueryOptions : QueryOptions :=
  { UserOrRole := ""
    Consistency := gocql.LocalOne
    SerialConsistency := gocql.LocalSerial
    PageState := none
    PageSize := 0
    Context := none }

def QueryOptions.WithUserOrRole (q : QueryOptions) (userOrRole : String) : QueryOptions :=
  { q with UserOrRole := userOrRole }

def QueryOptions.WithConsistency (q : QueryOptions) (consistency : gocql.Consistency) :
    QueryOptions :=
  { q with Consistency := consistency }

def QueryOptions.WithSerialConsistency (q : QueryOptions)
    (serialConsistency : gocql.SerialConsistency) : QueryOptions :=
  { q with SerialConsistency := serialConsistency }

def QueryOptions.WithPageSize (q : QueryOptions) (pageSize : Int) : QueryOptions :=
  { q with PageSize := pageSize }

def QueryOptions.WithPageState (q : QueryOptions) (pageState : Option (List UInt8)) :
    QueryOptions :=
  { q with PageState := pageState }

def QueryOptions.WithContext (q : QueryOptions) (ctx : Option Ctx) : QueryOptions :=
  { q with Context := ctx }

/-- The Go types row values point at. -/
inductive GoType where
  | string
  | int8
  | int16
  | float32
  | float64
  | dec
  deriving DecidableEq, Repr

/-- The payload a non-nil pointer points at. -/
inductive Scalar where
  | str (s : String)
  | int (bits : Nat) (v : Int)
  | float (bits : Nat) (repr : Nat)
  | dec (unscaled : Int) (scale : Int)
  deriving DecidableEq, Repr

/-- A typed Go pointer `*T`: nil, or the address of a value. -/
inductive Ptr where
  | nil (ty : GoType)
  | to (ty : GoType) (v : Scalar)
  deriving DecidableEq, Repr

/-- A row entry (an `interface{}`): it holds a pointer `*T`, or the address
of a variable that holds such a pointer (`**T`, never nil itself). -/
inductive RowValue where
  | ptr (p : Ptr)
  | ptrTo (p : Ptr)
  deriving DecidableEq, Repr

/-- A Go `map[string]interface{}` as the list of its entries, keys unique. -/
abbrev Row := List (String × RowValue)

/-- The type of the package function `mapScan(scanner, columns)`, applied to
the row the scanner is positioned on. -/
abbrev MapScan := List gocql.ColumnInfo → gocql.RawRow → Except DriverError Row

/-- The struct `goCqlResultIterator`; a nil slice is `none`. -/
structure goCqlResultIterator where
  pageState : Option (List UInt8)
  values : Option (List Row)
  deriving DecidableEq, Repr

def goCqlResultIterator.PageState (r : goCqlResultIterator) : Option (List UInt8) :=
  r.pageState

def goCqlResultIterator.Values (r : goCqlResultIterator) : Option (List Row) :=
  r.values

/-- The loop `for scanner.Next() { ... }` of `newResultIterator`: `pending`
are the rows the scanner still yields, `items` the slice built so far. -/
def scanLoop (mapScan : MapScan) (columns : List gocql.ColumnInfo) :
    List gocql.RawRow → List Row → Except DriverError (List Row)
  | [], items => .ok items
  | raw :: pending, items =>
    match mapScan columns raw with
    | .error err => .error err
    | .ok row => scanLoop mapScan columns pending (items ++ [row])

def newResultIterator (mapScan : MapScan) (iter : gocql.Iter) :
    Except GoError goCqlResultIterator :=
  let columns := iter.Columns
  let items : List Row := []
  match scanLoop mapScan columns iter.rows items with
  | .error err => .error (.other err)
  | .ok items =>
    match iter.Close with
    | some err => .error (.other err)
    | none => .ok { pageState := iter.PageState, values := some items }

/-- The struct `GoCqlSession`. -/
structure GoCqlSession where
  ref : gocql.Session

def GoCqlSession.ExecuteIter (mapScan : MapScan) (session : GoCqlSession) (query : String)
    (options : Option QueryOptions) (values : List Value) (log : List gocql.Event) :
    Except GoError goCqlResultIterator × List gocql.Event :=
  let q := session.ref.Query query values
  let q := q.NoSkipMetadata
  match options with
  | some options =>
    let q := q.Consistency options.Consistency
    if options.SerialConsistency ≠ gocql.Serial ∧
        options.SerialConsistency ≠ gocql.LocalSerial then
      (.error .invalidSerialConsistency, log)
    else
      let q := q.SerialConsistency options.SerialConsistency
      let q := if options.PageSize > 0 then q.PageSize options.PageSize else q
      let q := q.PageState options.PageState
      let q :=
        if options.UserOrRole ≠ "" then
          q.CustomPayload [("ProxyExecute", options.UserOrRole.toUTF8.data.toList)]
        else q
      let (iter, log) := q.Iter session.ref log
      (newResultIterator mapScan iter, log)
  | none =>
    let (iter, log) := q.Iter session.ref log
    (newResultIterator mapScan iter, log)

def GoCqlSession.Execute (mapScan : MapScan) (session : GoCqlSession) (query : String)
    (options : Option QueryOptions) (values : List Value) (log : List gocql.Event) :
    Option GoError × List gocql.Event :=
  match session.ExecuteIter mapScan query options values log with
  | (.error err, log) => (some err, log)
  | (.ok _, log) => (none, log)

/-- How a call ends: it returns, or it panics on a nil dereference. -/
inductive Outcome (α : Type) where
  | returned (a : α)
  | panicked
  deriving DecidableEq, Repr

def GoCqlSession.ChangeSchema (mapScan : MapScan) (session : GoCqlSession) (query : String)
    (options : Option QueryOptions) (log : List gocql.Event) :
    Outcome (Option GoError) × List gocql.Event :=
  match session.Execute mapScan query options [] log with
  | (some err, log) => (.returned (some err), log)
  | (none, log) =>
    match options with
    | none => (.panicked, log)
    | some options =>
      match options.Context with
      | some ctx =>
        let (err, log) := session.ref.AwaitSchemaAgreement ctx log
        (.returned (err.map GoError.other), log)
      | none => (.returned none, log)

/-- The interface `Session`, as far as statement execution goes. -/
structure Session where
  Execute : String → Option QueryOptions → List Value → List gocql.Event →
    Option GoError × List gocql.Event
  ExecuteIter : String → Option QueryOptions → List Value → List gocql.Event →
    Except GoError goCqlResultIterator × List gocql.Event
  ChangeSchema : String → Option QueryOptions → List gocql.Event →
    Outcome (Option GoError) × List gocql.Event

/-- The struct `GoCqlSession` seen through the interface. -/
def GoCqlSession.toSession (mapScan : MapScan) (session : GoCqlSession) : Session :=
  { Execute := session.Execute mapScan
    ExecuteIter := session.ExecuteIter mapScan
    ChangeSchema := session.ChangeSchema mapScan }

/-- The struct `Db`, reduced to its `session` field. -/
structure Db where
  session : Session

def Db.Execute (db : Db) (query : String) (options : Option QueryOptions)
    (values : List Value) (log : List gocql.Event) :
    Except GoError goCqlResultIterator × List gocql.Event :=
  db.session.ExecuteIter query options values log

/-- The body passes `values` without spreading it, so the callee's variadic
parameter is a one-element slice holding the caller's slice. -/
def Db.ExecuteNoResult (db : Db) (query : String) (options : Option QueryOptions)
    (values : List Value) (log : List gocql.Event) : Option GoError × List gocql.Event :=
  db.session.Execute query options [Value.slice values] log

end db

/-! ## Chains of builder calls -/

namespace db

/-- A builder call other than `WithSerialConsistency`, with its argument. -/
inductive Override where
  | WithUserOrRole (userOrRole : String)
  | WithConsistency (consistency : gocql.Consistency)
  | WithPageSize (pageSize : Int)
  | WithPageState (pageState : Option (List UInt8))
  | WithContext (ctx : Option Ctx)

/-- One builder call applied to the options it is invoked on. -/
def QueryOptions.override (q : QueryOptions) : Override → QueryOptions
  | .WithUserOrRole userOrRole => q.WithUserOrRole userOrRole
  | .WithConsistency consistency => q.WithConsistency consistency
  | .WithPageSize pageSize => q.WithPageSize pageSize
  | .WithPageState pageState => q.WithPageState pageState
  | .WithContext ctx => q.WithContext ctx

/-- A chain `q.With...(..).With...(..)` of builder calls, applied left to right. -/
def QueryOptions.chain (q : QueryOptions) (calls : List Override) : QueryOptions :=
  calls.foldl QueryOptions.override q

end db

/-! ## Row mapping

The function `mapScan` lives in the type-mapping file of package `db`, which
is not among the sources at hand; `newResultIterator` above takes it as a
parameter.  The definitions below give the mapping the specification and the
numeric type-mapping test describe. -/

namespace db

/-- Modelled from the spec: the Go type that `mapScan` (type-mapping file of
package db, absent from the sources) maps each CQL type to.  The table is the
one `TestNumericCqlTypeMapping` asserts: bigint as string, float as float32,
double as float64, smallint as int16, tinyint as int8, decimal as inf.Dec. -/
def mappedType : gocql.CqlType → GoType
  | .TypeBigInt => .string
  | .TypeFloat => .float32
  | .TypeDouble => .float64
  | .TypeSmallInt => .int16
  | .TypeTinyInt => .int8
  | .TypeDecimal => .dec

/-- Modelled from the spec: decoding of a stored value by `mapScan` (absent
from the sources).  Widths are kept exactly, a decimal keeps its unscaled
value and scale, a bigint is rendered as decimal text, and a value that does
not fit the declared type is an error. -/
def decodeCell : gocql.CqlType → gocql.Cell → Except DriverError Scalar
  | .TypeBigInt, .int 64 v => .ok (.str (toString v))
  | .TypeFloat, .float 32 r => .ok (.float 32 r)
  | .TypeDouble, .float 64 r => .ok (.float 64 r)
  | .TypeSmallInt, .int 16 v => .ok (.int 16 v)
  | .TypeTinyInt, .int 8 v => .ok (.int 8 v)
  | .TypeDecimal, .decimal u s => .ok (.dec u s)
  | _, _ => .error { msg := "can not unmarshal the value into the column type" }

/-- Modelled from the spec: the shape in which `mapScan` (absent from the
sources) stores a decoded pointer in the row.  The test reads every numeric
entry as the pointer itself, and a decimal entry through one more `Elem()`. -/
def rowEntry : gocql.CqlType → Ptr → RowValue
  | .TypeDecimal, p => .ptrTo p
  | _, p => .ptr p

/-- Modelled from the spec: decoding of one column of the current row by
`mapScan` (absent from the sources): a column with no stored value decodes to
Null, the nil pointer of the mapped type, whatever the declared type. -/
def decodeColumn (ty : gocql.CqlType) : Option gocql.Cell → Except DriverError RowValue
  | none => .ok (rowEntry ty (.nil (mappedType ty)))
  | some cell =>
    match decodeCell ty cell with
    | .error err => .error err
    | .ok v => .ok (rowEntry ty (.to (mappedType ty) v))

/-- The Go map assignment `m[k] = v`. -/
def Row.set : Row → String → RowValue → Row
  | [], k, v => [(k, v)]
  | (k0, v0) :: rest, k, v =>
    if k0 = k then (k, v) :: rest else (k0, v0) :: Row.set rest k v

/-- The Go map read `m[k]`. -/
def Row.get (m : Row) (k : String) : Option RowValue :=
  m.lookup k

/-- Modelled from the spec: the loop of `mapScan` (absent from the sources)
that stores each decoded column under its name. -/
def mapScanFrom : List gocql.ColumnInfo → gocql.RawRow → Row → Except DriverError Row
  | [], [], mapped => .ok mapped
  | column :: columns, cell :: cells, mapped =>
    match decodeColumn column.TypeInfo cell with
    | .error err => .error err
    | .ok v => mapScanFrom columns cells (mapped.set column.Name v)
  | _, _, _ => .error { msg := "the row does not have one value per column" }

/-- Modelled from the spec: `mapScan(scanner, columns)` of package db (absent
from the sources): every returned row is decoded into a map from column name
to value. -/
def mapScan : MapScan :=
  fun columns raw => mapScanFrom columns raw []

/-! ### Sample data: the table of the numeric type-mapping test -/

def numericColumns : List gocql.ColumnInfo :=
  [ { Name := "bigint_value", TypeInfo := .TypeBigInt },
    { Name := "float_value", TypeInfo := .TypeFloat },
    { Name := "double_value", TypeInfo := .TypeDouble },
    { Name := "smallint_value", TypeInfo := .TypeSmallInt },
    { Name := "tinyint_value", TypeInfo := .TypeTinyInt },
    { Name := "decimal_value", TypeInfo := .TypeDecimal } ]

/-- The row inserted with every column set. -/
def fullRow : gocql.RawRow :=
  [ some (.int 64 1), some (.float 32 0x3F8CCCCD), some (.float 64 0x3FF199999999999A),
    some (.int 16 1), some (.int 8 1), some (.decimal 125 2) ]

/-- The row inserted with only its key set. -/
def keyOnlyRow : gocql.RawRow :=
  [ none, none, none, none, none, none ]

def sampleIter : gocql.Iter :=
  { columns := numericColumns, rows := [fullRow, keyOnlyRow], closeErr := none,
    pageState := some [1, 2, 3] }

/-- The result set the two sample rows decode to. -/
def sampleResult : goCqlResultIterator :=
  { pageState := some [1, 2, 3],
    values := some
      [ [ ("bigint_value", .ptr (.to .string (.str "1"))),
          ("float_value", .ptr (.to .float32 (.float 32 0x3F8CCCCD))),
          ("double_value", .ptr (.to .float64 (.float 64 0x3FF199999999999A))),
          ("smallint_value", .ptr (.to .int16 (.int 16 1))),
          ("tinyint_value", .ptr (.to .int8 (.int 8 1))),
          ("decimal_value", .ptrTo (.to .dec (.dec 125 2))) ],
        [ ("bigint_value", .ptr (.nil .string)),
          ("float_value", .ptr (.nil .float32)),
          ("double_value", .ptr (.nil .float64)),
          ("smallint_value", .ptr (.nil .int16)),
          ("tinyint_value", .ptr (.nil .int8)),
          ("decimal_value", .ptrTo (.nil .dec)) ] ] }

/-- A session whose cluster answers every statement with `sampleIter` and
reports schema agreement at once. -/
def sampleSession : GoCqlSession :=
  { ref := { cfgPageSize := 5000, run := fun _ _ => sampleIter, agree := fun _ _ => none } }

/-- A session whose cluster never reaches schema agreement in time. -/
def slowSession : GoCqlSession :=
  { ref := { cfgPageSize := 5000, run := fun _ _ => sampleIter,
             agree := fun _ _ => some { msg := "context deadline exceeded" } } }

/-- A result whose two columns bear the same name: the first has no stored
value, the second holds 5. -/
def repeatedNameIter : gocql.Iter :=
  { columns := [ { Name := "x", TypeInfo := .TypeTinyInt },
                 { Name := "x", TypeInfo := .TypeTinyInt } ],
    rows := [[none, some (.int 8 5)]], closeErr := none, pageState := none }

/-- A session whose cluster answers every statement with `repeatedNameIter`. -/
def repeatedNameSession : GoCqlSession :=
  { ref := { cfgPageSize := 5000, run := fun _ _ => repeatedNameIter,
             agree := fun _ _ => none } }

end db

/-! ## Package graphql: keyspace values

The Go standard library functions used by `buildKeyspaceValue` are given by
what they compute: `strings.Contains` is the substring test and
`strconv.Atoi` reads an optional sign followed by decimal digits into an
`int` (64 bits wide), failing on anything else and on values out of range. -/

namespace strings

/-- Does `sub` occur in `s` as a run of consecutive characters? -/
def containsChars : List Char → List Char → Bool
  | [], sub => sub.isEmpty
  | c :: rest, sub => sub.isPrefixOf (c :: rest) || containsChars rest sub

/-- The call `strings.Contains(s, substr)`. -/
def Contains (s substr : String) : Bool :=
  containsChars s.data substr.data

end strings

namespace strconv

/-- The digits of a base-10 numeral read left to right onto the value `n`
accumulated so far; `none` when a character is not a decimal digit. -/
def parseDigits : List Char → Nat → Option Nat
  | [], n => some n
  | ch :: rest, n =>
    if 48 ≤ ch.toNat ∧ ch.toNat ≤ 57 then parseDigits rest (n * 10 + (ch.toNat - 48))
    else none

/-- The digits of an unsigned numeral: at least one digit, digits only. -/
def parseUnsigned (digits : List Char) : Option Nat :=
  if digits.isEmpty then none else parseDigits digits 0

/-- The call `strconv.Atoi(s)`; `none` stands for a non-nil error (malformed
text, or a value outside the range of `int`). -/
def Atoi (s : String) : Option Int :=
  match s.data with
  | [] => none
  | c :: rest =>
    if c.toNat = 45 then
      match parseUnsigned rest with
      | some n => if n ≤ 2 ^ 63 then some (-(n : Int)) else none
      | none => none
    else
      match parseUnsigned (if c.toNat = 43 then rest else c :: rest) with
      | some n => if n < 2 ^ 63 then some (n : Int) else none
      | none => none

end strconv

namespace gocql

/-- The driver record `gocql.KeyspaceMetadata`, reduced to the fields read
here.  `StrategyOptions` is a Go map, given as its entries in the order a
`range` loop visits them; keys are unique. -/
structure KeyspaceMetadata where
  Name : String
  StrategyClass : String
  StrategyOptions : List (String × Value)

end gocql

namespace graphql

/-- The struct `dataCenterValue`. -/
structure dataCenterValue where
  Name : String
  Replicas : Int
  deriving DecidableEq, Repr

/-- The struct `ksValue`. -/
structure ksValue where
  Name : String
  DCs : List dataCenterValue
  keyspace : gocql.KeyspaceMetadata

/-- One call of `sg.logger.Error` with its key-value arguments. -/
structure LogEntry where
  msg : String
  replicas : Value
  keyspace : String

/-- The loop `for dc, replicas := range keyspace.StrategyOptions` of
`buildKeyspaceValue`: `pending` are the entries still to visit, `dcs` the
slice built so far, `logged` the errors logged so far.  The type assertion
`replicas.(string)` panics on a value that is not a string. -/
def rangeStrategyOptions (keyspaceName : String) :
    List (String × Value) → List dataCenterValue → List LogEntry →
    db.Outcome (List dataCenterValue × List LogEntry)
  | [], dcs, logged => .returned (dcs, logged)
  | (dc, replicas) :: pending, dcs, logged =>
    match replicas with
    | .text s =>
      match strconv.Atoi s with
      | none =>
        rangeStrategyOptions keyspaceName pending dcs
          (logged ++ [{ msg := "invalid replicas value for keyspace", replicas := replicas,
                        keyspace := keyspaceName }])
      | some count =>
        rangeStrategyOptions keyspaceName pending
          (dcs ++ [{ Name := dc, Replicas := count }]) logged
    | _ => .panicked

/-- The method `SchemaGenerator.buildKeyspaceValue`; next to the value it
returns, the result lists what was written to the logger. -/
def buildKeyspaceValue (keyspace : gocql.KeyspaceMetadata) :
    db.Outcome (ksValue × List LogEntry) :=
  let dcs : List dataCenterValue := []
  if strings.Contains keyspace.StrategyClass "NetworkTopologyStrategy" then
    match rangeStrategyOptions keyspace.Name keyspace.StrategyOptions dcs [] with
    | .panicked => .panicked
    | .returned (dcs, logged) =>
      .returned ({ Name := keyspace.Name, DCs := dcs, keyspace := keyspace }, logged)
  else
    .returned ({ Name := keyspace.Name, DCs := dcs, keyspace := keyspace }, [])

/-- The data centre an option with a string value contributes, if any. -/
def dataCenterOf (option : String × Value) : Option dataCenterValue :=
  match option.2 with
  | .text s => (strconv.Atoi s).map (fun count => { Name := option.1, Replicas := count })
  | _ => none

/-- A keyspace replicated over three data centres, one option of which
does not hold a number. -/
def sampleKeyspace : gocql.KeyspaceMetadata :=
  { Name := "ks1"
    StrategyClass := "org.apache.cassandra.locator.NetworkTopologyStrategy"
    StrategyOptions := [("dc1", .text "3"), ("dc2", .text "three"), ("dc3", .text "1")] }

/-- A keyspace with the simple replication strategy. -/
def simpleKeyspace : gocql.KeyspaceMetadata :=
  { Name := "system_auth"
    StrategyClass := "org.apache.cassandra.locator.SimpleStrategy"
    StrategyOptions := [("replication_factor", .text "1")] }

end graphql

/-! ## Properties -/

namespace db

/-- The statement `ExecuteIter` hands to the driver for options that pass the
serial-consistency check. -/
theorem ExecuteIter_some_valid (mapScan : MapScan) (session : GoCqlSession) (query : String)
    (o : QueryOptions) (values : List Value) (log : List gocql.Event)
    (h : o.SerialConsistency = gocql.Serial ∨ o.SerialConsistency = gocql.LocalSerial) :
    session.ExecuteIter mapScan query (some o) values log =
      (newResultIterator mapScan (session.ref.run log
          { stmt := query, values := values, disableSkipMetadata := true,
            cons := some o.Consistency, serialCons := some o.SerialConsistency,
            pageSize := if o.PageSize > 0 then some o.PageSize else none,
            pageState := some o.PageState,
            customPayload :=
              if o.UserOrRole ≠ "" then some [("ProxyExecute", o.UserOrRole.toUTF8.data.toList)]
              else none }),
        log ++ [gocql.Event.iter
          { stmt := query, values := values, disableSkipMetadata := true,
            cons := some o.Consistency, serialCons := some o.SerialConsistency,
            pageSize := if o.PageSize > 0 then some o.PageSize else none,
            pageState := some o.PageState,
            customPayload :=
              if o.UserOrRole ≠ "" then some [("ProxyExecute", o.UserOrRole.toUTF8.data.toList)]
              else none }]) := by
  have hv : ¬ (o.SerialConsistency ≠ gocql.Serial ∧ o.SerialConsistency ≠ gocql.LocalSerial) := by
    rcases h with h | h <;> simp [h]
  unfold GoCqlSession.ExecuteIter
  simp only [hv, if_false]
  by_cases hp : o.PageSize > 0 <;> by_cases hu : o.UserOrRole = "" <;>
    simp [hp, hu, gocql.Query.Iter, gocql.Session.Query, gocql.Query.NoSkipMetadata,
      gocql.Query.Consistency, gocql.Query.SerialConsistency, gocql.Query.PageSize,
      gocql.Query.PageState, gocql.Query.CustomPayload]

theorem ExecuteIter_some_invalid (mapScan : MapScan) (session : GoCqlSession) (query : String)
    (o : QueryOptions) (values : List Value) (log : List gocql.Event)
    (h1 : o.SerialConsistency ≠ gocql.Serial) (h2 : o.SerialConsistency ≠ gocql.LocalSerial) :
    session.ExecuteIter mapScan query (some o) values log =
      (.error .invalidSerialConsistency, log) := by
  unfold GoCqlSession.ExecuteIter
  simp [h1, h2]

theorem ExecuteIter_none (mapScan : MapScan) (session : GoCqlSession) (query : String)
    (values : List Value) (log : List gocql.Event) :
    session.ExecuteIter mapScan query none values log =
      (newResultIterator mapScan (session.ref.run log
          { stmt := query, values := values, disableSkipMetadata := true, cons := none,
            serialCons := none, pageSize := none, pageState := none, customPayload := none }),
        log ++ [gocql.Event.iter
          { stmt := query, values := values, disableSkipMetadata := true, cons := none,
            serialCons := none, pageSize := none, pageState := none,
            customPayload := none }]) := by
  simp [GoCqlSession.ExecuteIter, gocql.Query.Iter, gocql.Session.Query,
    gocql.Query.NoSkipMetadata]

/-- Errors of `newResultIterator` come from the row mapping or from `Close`. -/
theorem newResultIterator_ne_invalid (mapScan : MapScan) (iter : gocql.Iter) :
    newResultIterator mapScan iter ≠ .error .invalidSerialConsistency := by
  unfold newResultIterator
  simp only
  split
  · simp
  · split <;> simp

end db
namespace db

/-- Every call of `ExecuteIter` either stops at the serial-consistency check,
leaving the log untouched, or sends exactly one statement and builds the
result from the cluster's answer. -/
theorem ExecuteIter_cases (mapScan : MapScan) (session : GoCqlSession) (query : String)
    (options : Option QueryOptions) (values : List Value) (log : List gocql.Event) :
    ((∃ o, options = some o ∧ o.SerialConsistency ≠ gocql.Serial ∧
          o.SerialConsistency ≠ gocql.LocalSerial) ∧
        session.ExecuteIter mapScan query options values log =
          (.error .invalidSerialConsistency, log)) ∨
    ((options = none ∨ ∃ o, options = some o ∧
          (o.SerialConsistency = gocql.Serial ∨ o.SerialConsistency = gocql.LocalSerial)) ∧
        ∃ q : gocql.Query, q.stmt = query ∧ q.values = values ∧
          session.ExecuteIter mapScan query options values log =
            (newResultIterator mapScan (session.ref.run log q),
              log ++ [gocql.Event.iter q])) := by
  cases options with
  | none =>
    right
    exact ⟨Or.inl rfl, _, rfl, rfl, ExecuteIter_none mapScan session query values log⟩
  | some o =>
    by_cases h : o.SerialConsistency = gocql.Serial ∨ o.SerialConsistency = gocql.LocalSerial
    · right
      exact ⟨Or.inr ⟨o, rfl, h⟩, _, rfl, rfl,
        ExecuteIter_some_valid mapScan session query o values log h⟩
    · left
      have h1 : o.SerialConsistency ≠ gocql.Serial := fun e => h (Or.inl e)
      have h2 : o.SerialConsistency ≠ gocql.LocalSerial := fun e => h (Or.inr e)
      exact ⟨⟨o, rfl, h1, h2⟩, ExecuteIter_some_invalid mapScan session query o values log h1 h2⟩

/-- What `Execute` reports and appends to the log. -/
theorem Execute_cases (mapScan : MapScan) (session : GoCqlSession) (query : String)
    (options : Option QueryOptions) (values : List Value) (log : List gocql.Event) :
    ((∃ o, options = some o ∧ o.SerialConsistency ≠ gocql.Serial ∧
          o.SerialConsistency ≠ gocql.LocalSerial) ∧
        session.Execute mapScan query options values log =
          (some .invalidSerialConsistency, log)) ∨
    (∃ q : gocql.Query, q.stmt = query ∧ q.values = values ∧
        (session.Execute mapScan query options values log).2 = log ++ [gocql.Event.iter q] ∧
        (session.Execute mapScan query options values log).1 ≠
          some .invalidSerialConsistency) := by
  rcases ExecuteIter_cases mapScan session query options values log with ⟨ho, h⟩ | ⟨_, q, hs, hv, h⟩
  · left
    refine ⟨ho, ?_⟩
    simp [GoCqlSession.Execute, h]
  · right
    refine ⟨q, hs, hv, ?_, ?_⟩
    · unfold GoCqlSession.Execute
      rw [h]
      cases newResultIterator mapScan (session.ref.run log q) <;> rfl
    · unfold GoCqlSession.Execute
      rw [h]
      have hne := newResultIterator_ne_invalid mapScan (session.ref.run log q)
      cases hr : newResultIterator mapScan (session.ref.run log q) with
      | error e =>
        rw [hr] at hne
        intro hc
        apply hne
        simp only [Option.some.injEq] at hc
        rw [hc]
      | ok r => simp

end db

namespace db

/-- C1: for options that are not nil and whose SerialConsistency is neither
Serial nor LocalSerial, `ExecuteIter` returns the "Invalid serial consistency"
error with no result set and the driver log unchanged (the statement is never
sent); for nil options, or SerialConsistency equal to Serial or LocalSerial,
it never returns that error and exactly one statement, carrying the given
query text and bound values, is sent. -/
theorem ExecuteIter_serial_consistency_check (mapScan : MapScan) (session : GoCqlSession)
    (query : String) (options : Option QueryOptions) (values : List Value)
    (log : List gocql.Event) :
    (∀ o, options = some o → o.SerialConsistency ≠ gocql.Serial →
        o.SerialConsistency ≠ gocql.LocalSerial →
        session.ExecuteIter mapScan query options values log =
          (.error .invalidSerialConsistency, log)) ∧
    ((options = none ∨ ∃ o, options = some o ∧
          (o.SerialConsistency = gocql.Serial ∨ o.SerialConsistency = gocql.LocalSerial)) →
        (session.ExecuteIter mapScan query options values log).1 ≠
          .error .invalidSerialConsistency ∧
        ∃ q : gocql.Query, q.stmt = query ∧ q.values = values ∧
          (session.ExecuteIter mapScan query options values log).2 =
            log ++ [gocql.Event.iter q]) := by
  constructor
  · intro o ho h1 h2
    subst ho
    exact ExecuteIter_some_invalid mapScan session query o values log h1 h2
  · intro hvalid
    rcases ExecuteIter_cases mapScan session query options values log with
      ⟨⟨o, ho, h1, h2⟩, _⟩ | ⟨_, q, hs, hv, h⟩
    · exfalso
      rcases hvalid with hn | ⟨o2, ho2, hs2⟩
      · rw [hn] at ho
        cases ho
      · rw [ho2] at ho
        cases ho
        rcases hs2 with e | e
        · exact h1 e
        · exact h2 e
    · rw [h]
      exact ⟨newResultIterator_ne_invalid mapScan _, q, hs, hv, rfl⟩

theorem ExecuteIter_serial_consistency_check_witness :
    sampleSession.ExecuteIter mapScan "SELECT * FROM ks1.tbl_numerics"
        (some (NewQueryOptions.WithSerialConsistency 0x01)) [] [] =
      (.error .invalidSerialConsistency, []) ∧
    (sampleSession.ExecuteIter mapScan "SELECT * FROM ks1.tbl_numerics" none [] []).1 ≠
      .error .invalidSerialConsistency :=
  ⟨(ExecuteIter_serial_consistency_check mapScan sampleSession "SELECT * FROM ks1.tbl_numerics"
      (some (NewQueryOptions.WithSerialConsistency 0x01)) [] []).1 _ rfl
      (by decide) (by decide),
   ((ExecuteIter_serial_consistency_check mapScan sampleSession "SELECT * FROM ks1.tbl_numerics"
      none [] []).2 (Or.inl rfl)).1⟩

/-- A slice wrapped into a one-element slice is never the slice itself. -/
theorem Value.singleton_slice_ne (values : List Value) : [Value.slice values] ≠ values := by
  intro h
  have hs := congrArg sizeOf h
  simp at hs
  omega

/-- C2 (as the code behaves): `Db.ExecuteNoResult` calls the session's
`Execute` with the query and the options, but with the one-element parameter
list whose single element is the whole slice of bound values; that list is
never the list of bound values, which is what `Db.Execute` forwards to
`ExecuteIter`. -/
theorem ExecuteNoResult_forwards_wrapped_values (db : Db) (query : String)
    (options : Option QueryOptions) (values : List Value) (log : List gocql.Event) :
    db.ExecuteNoResult query options values log =
        db.session.Execute query options [Value.slice values] log ∧
      [Value.slice values] ≠ values ∧
      db.Execute query options values log =
        db.session.ExecuteIter query options values log :=
  ⟨rfl, Value.singleton_slice_ne values, rfl⟩

/-- On a driver-backed session, two bound values passed to `ExecuteNoResult`
reach the driver as a single parameter, while `Db.Execute` sends them as two. -/
theorem ExecuteNoResult_two_values :
    (∃ q : gocql.Query,
      (Db.ExecuteNoResult { session := sampleSession.toSession mapScan }
          "INSERT INTO ks1.tbl_numerics (id, tinyint_value) VALUES (?, ?)" none
          [Value.int 1, Value.int 2] []).2 = [gocql.Event.iter q] ∧
        q.values = [Value.slice [Value.int 1, Value.int 2]] ∧ q.values.length = 1) ∧
    (∃ q : gocql.Query,
      (Db.Execute { session := sampleSession.toSession mapScan }
          "INSERT INTO ks1.tbl_numerics (id, tinyint_value) VALUES (?, ?)" none
          [Value.int 1, Value.int 2] []).2 = [gocql.Event.iter q] ∧
        q.values = [Value.int 1, Value.int 2] ∧ q.values.length = 2) :=
  ⟨⟨_, rfl, rfl, rfl⟩, ⟨_, rfl, rfl, rfl⟩⟩

/-- C3: for options that pass the serial-consistency check, the statement
sent carries page size n when PageSize = n > 0; when PageSize is 0 or
negative the page-size setter is never called, the statement runs with the
driver's configured page size, and in no case is a page size that is not
positive set on the statement. -/
theorem ExecuteIter_page_size (mapScan : MapScan) (session : GoCqlSession) (query : String)
    (o : QueryOptions) (values : List Value) (log : List gocql.Event)
    (h : o.SerialConsistency = gocql.Serial ∨ o.SerialConsistency = gocql.LocalSerial) :
    ∃ q : gocql.Query,
      (session.ExecuteIter mapScan query (some o) values log).2 =
        log ++ [gocql.Event.iter q] ∧
      (0 < o.PageSize → q.pageSize = some o.PageSize ∧
        q.effectivePageSize session.ref = o.PageSize) ∧
      (o.PageSize ≤ 0 → q.pageSize = none ∧
        q.effectivePageSize session.ref = session.ref.cfgPageSize) ∧
      (∀ n, q.pageSize = some n → 0 < n) := by
  rw [ExecuteIter_some_valid mapScan session query o values log h]
  refine ⟨_, rfl, ?_, ?_, ?_⟩
  · intro hp
    simp [gocql.Query.effectivePageSize, hp]
  · intro hp
    have hn : ¬ o.PageSize > 0 := not_lt.mpr hp
    simp [gocql.Query.effectivePageSize, hn]
  · intro n hn
    by_cases hp : o.PageSize > 0
    · simp [hp] at hn
      omega
    · simp [hp] at hn

theorem ExecuteIter_page_size_witness :
    ∃ q : gocql.Query,
      (sampleSession.ExecuteIter mapScan "SELECT * FROM ks1.tbl_numerics"
          (some (NewQueryOptions.WithPageSize 25)) [] []).2 = [] ++ [gocql.Event.iter q] ∧
      (0 < (NewQueryOptions.WithPageSize 25).PageSize →
        q.pageSize = some (NewQueryOptions.WithPageSize 25).PageSize ∧
        q.effectivePageSize sampleSession.ref = (NewQueryOptions.WithPageSize 25).PageSize) ∧
      ((NewQueryOptions.WithPageSize 25).PageSize ≤ 0 → q.pageSize = none ∧
        q.effectivePageSize sampleSession.ref = sampleSession.ref.cfgPageSize) ∧
      (∀ n, q.pageSize = some n → 0 < n) :=
  ExecuteIter_page_size mapScan sampleSession "SELECT * FROM ks1.tbl_numerics"
    (NewQueryOptions.WithPageSize 25) [] [] (Or.inr rfl)

/-- C8: for options that pass the serial-consistency check, the statement
sent carries a custom payload exactly when UserOrRole is not empty; the
payload is then the single entry "ProxyExecute" with the bytes of UserOrRole,
and with an empty UserOrRole the payload setter is never called. -/
theorem ExecuteIter_custom_payload (mapScan : MapScan) (session : GoCqlSession)
    (query : String) (o : QueryOptions) (values : List Value) (log : List gocql.Event)
    (h : o.SerialConsistency = gocql.Serial ∨ o.SerialConsistency = gocql.LocalSerial) :
    ∃ q : gocql.Query,
      (session.ExecuteIter mapScan query (some o) values log).2 =
        log ++ [gocql.Event.iter q] ∧
      (q.customPayload.isSome = true ↔ o.UserOrRole ≠ "") ∧
      (o.UserOrRole ≠ "" →
        q.customPayload = some [("ProxyExecute", o.UserOrRole.toUTF8.data.toList)]) ∧
      (o.UserOrRole = "" → q.customPayload = none) := by
  rw [ExecuteIter_some_valid mapScan session query o values log h]
  refine ⟨_, rfl, ?_, ?_, ?_⟩
  · by_cases hu : o.UserOrRole = "" <;> simp [hu]
  · intro hu
    simp [hu]
  · intro hu
    simp [hu]

theorem ExecuteIter_custom_payload_witness :
    ∃ q : gocql.Query,
      (sampleSession.ExecuteIter mapScan "SELECT * FROM ks1.tbl_numerics"
          (some (NewQueryOptions.WithUserOrRole "alice")) [] []).2 =
        [] ++ [gocql.Event.iter q] ∧
      (q.customPayload.isSome = true ↔ (NewQueryOptions.WithUserOrRole "alice").UserOrRole ≠ "") ∧
      ((NewQueryOptions.WithUserOrRole "alice").UserOrRole ≠ "" →
        q.customPayload = some [("ProxyExecute",
          (NewQueryOptions.WithUserOrRole "alice").UserOrRole.toUTF8.data.toList)]) ∧
      ((NewQueryOptions.WithUserOrRole "alice").UserOrRole = "" → q.customPayload = none) :=
  ExecuteIter_custom_payload mapScan sampleSession "SELECT * FROM ks1.tbl_numerics"
    (NewQueryOptions.WithUserOrRole "alice") [] [] (Or.inr rfl)

end db

namespace db

/-- When `Execute` reports success, exactly one statement was sent. -/
theorem Execute_success (mapScan : MapScan) (session : GoCqlSession) (query : String)
    (options : Option QueryOptions) (values : List Value) (log : List gocql.Event)
    (h : (session.Execute mapScan query options values log).1 = none) :
    ∃ q : gocql.Query, q.stmt = query ∧ q.values = values ∧
      session.Execute mapScan query options values log = (none, log ++ [gocql.Event.iter q]) := by
  rcases Execute_cases mapScan session query options values log with ⟨_, he⟩ | ⟨q, hs, hv, hl, _⟩
  · rw [he] at h
    cases h
  · exact ⟨q, hs, hv, Prod.ext h hl⟩

/-- C4: for options that are not nil and carry no Context, when the DDL
execution succeeds `ChangeSchema` returns nil; the only driver call it makes
is the one execution of the statement, so the schema-agreement wait is never
invoked. -/
theorem ChangeSchema_without_context (mapScan : MapScan) (session : GoCqlSession)
    (query : String) (o : QueryOptions) (log : List gocql.Event)
    (hctx : o.Context = none)
    (hexec : (session.Execute mapScan query (some o) [] log).1 = none) :
    ∃ q : gocql.Query, q.stmt = query ∧
      session.ChangeSchema mapScan query (some o) log =
        (.returned none, log ++ [gocql.Event.iter q]) ∧
      ∀ ev ∈ [gocql.Event.iter q], ev.isAwait = false := by
  obtain ⟨q, hs, _, he⟩ := Execute_success mapScan session query (some o) [] log hexec
  refine ⟨q, hs, ?_, ?_⟩
  · unfold GoCqlSession.ChangeSchema
    rw [he]
    simp [hctx]
  · intro ev hev
    simp only [List.mem_singleton] at hev
    subst hev
    rfl

theorem ChangeSchema_without_context_witness :
    ∃ q : gocql.Query, q.stmt = "DROP TABLE ks1.tbl_numerics" ∧
      sampleSession.ChangeSchema mapScan "DROP TABLE ks1.tbl_numerics"
          (some NewQueryOptions) [] =
        (.returned none, [] ++ [gocql.Event.iter q]) ∧
      ∀ ev ∈ [gocql.Event.iter q], ev.isAwait = false :=
  ChangeSchema_without_context mapScan sampleSession "DROP TABLE ks1.tbl_numerics"
    NewQueryOptions [] rfl rfl

/-- C5: for any options (nil, with or without a Context), when the DDL
execution inside `ChangeSchema` fails with error e (the serial-consistency
error included), `ChangeSchema` returns exactly e, the log is the one the
execution left, and no schema-agreement wait appears among the driver calls
made. -/
theorem ChangeSchema_execution_failure (mapScan : MapScan) (session : GoCqlSession)
    (query : String) (options : Option QueryOptions) (log : List gocql.Event) (e : GoError)
    (hexec : (session.Execute mapScan query options [] log).1 = some e) :
    session.ChangeSchema mapScan query options log =
        (.returned (some e), (session.Execute mapScan query options [] log).2) ∧
      ∃ evs : List gocql.Event,
        (session.ChangeSchema mapScan query options log).2 = log ++ evs ∧
        ∀ ev ∈ evs, ev.isAwait = false := by
  have hcs : session.ChangeSchema mapScan query options log =
      (.returned (some e), (session.Execute mapScan query options [] log).2) := by
    unfold GoCqlSession.ChangeSchema
    have hp : session.Execute mapScan query options [] log =
        (some e, (session.Execute mapScan query options [] log).2) := Prod.ext hexec rfl
    rw [hp]
  refine ⟨hcs, ?_⟩
  rw [hcs]
  rcases Execute_cases mapScan session query options [] log with ⟨_, he⟩ | ⟨q, _, _, hl, _⟩
  · refine ⟨[], ?_, ?_⟩
    · simp [he]
    · intro ev hev
      cases hev
  · refine ⟨[gocql.Event.iter q], hl, ?_⟩
    intro ev hev
    simp only [List.mem_singleton] at hev
    subst hev
    rfl

theorem ChangeSchema_execution_failure_witness :
    sampleSession.ChangeSchema mapScan "DROP TABLE ks1.tbl_numerics"
          (some ((NewQueryOptions.WithSerialConsistency 0x04).WithContext (some { id := 7 }))) [] =
        (.returned (some .invalidSerialConsistency),
          (sampleSession.Execute mapScan "DROP TABLE ks1.tbl_numerics"
            (some ((NewQueryOptions.WithSerialConsistency 0x04).WithContext (some { id := 7 })))
            [] []).2) ∧
      ∃ evs : List gocql.Event,
        (sampleSession.ChangeSchema mapScan "DROP TABLE ks1.tbl_numerics"
          (some ((NewQueryOptions.WithSerialConsistency 0x04).WithContext (some { id := 7 })))
          []).2 = [] ++ evs ∧
        ∀ ev ∈ evs, ev.isAwait = false :=
  ChangeSchema_execution_failure mapScan sampleSession "DROP TABLE ks1.tbl_numerics"
    (some ((NewQueryOptions.WithSerialConsistency 0x04).WithContext (some { id := 7 }))) []
    .invalidSerialConsistency rfl

/-- C6: for options carrying a Context, when the DDL execution succeeds
`ChangeSchema` sends the statement exactly once and then waits for schema
agreement once, and it returns what the wait reports: the wait's error t
when the wait ends with t, nil when the wait reports agreement.  Nothing else
is sent, so the statement is neither executed again nor undone. -/
theorem ChangeSchema_with_context (mapScan : MapScan) (session : GoCqlSession)
    (query : String) (o : QueryOptions) (ctx : Ctx) (log : List gocql.Event)
    (hctx : o.Context = some ctx)
    (hexec : (session.Execute mapScan query (some o) [] log).1 = none) :
    ∃ q : gocql.Query, q.stmt = query ∧
      (session.ChangeSchema mapScan query (some o) log).2 =
        log ++ [gocql.Event.iter q, gocql.Event.awaitSchemaAgreement ctx] ∧
      (∀ t, session.ref.agree (log ++ [gocql.Event.iter q]) ctx = some t →
        (session.ChangeSchema mapScan query (some o) log).1 = .returned (some (.other t))) ∧
      (session.ref.agree (log ++ [gocql.Event.iter q]) ctx = none →
        (session.ChangeSchema mapScan query (some o) log).1 = .returned none) := by
  obtain ⟨q, hs, _, he⟩ := Execute_success mapScan session query (some o) [] log hexec
  have hcs : session.ChangeSchema mapScan query (some o) log =
      (.returned ((session.ref.agree (log ++ [gocql.Event.iter q]) ctx).map GoError.other),
        log ++ [gocql.Event.iter q, gocql.Event.awaitSchemaAgreement ctx]) := by
    unfold GoCqlSession.ChangeSchema
    rw [he]
    simp [hctx, gocql.Session.AwaitSchemaAgreement]
  refine ⟨q, hs, ?_, ?_, ?_⟩
  · rw [hcs]
  · intro t ht
    rw [hcs, ht]
    rfl
  · intro ht
    rw [hcs, ht]
    rfl

theorem ChangeSchema_with_context_witness :
    ∃ q : gocql.Query, q.stmt = "DROP TABLE ks1.tbl_numerics" ∧
      (slowSession.ChangeSchema mapScan "DROP TABLE ks1.tbl_numerics"
          (some (NewQueryOptions.WithContext (some { id := 7 }))) []).2 =
        [] ++ [gocql.Event.iter q, gocql.Event.awaitSchemaAgreement { id := 7 }] ∧
      (∀ t, slowSession.ref.agree ([] ++ [gocql.Event.iter q]) { id := 7 } = some t →
        (slowSession.ChangeSchema mapScan "DROP TABLE ks1.tbl_numerics"
          (some (NewQueryOptions.WithContext (some { id := 7 }))) []).1 =
            .returned (some (.other t))) ∧
      (slowSession.ref.agree ([] ++ [gocql.Event.iter q]) { id := 7 } = none →
        (slowSession.ChangeSchema mapScan "DROP TABLE ks1.tbl_numerics"
          (some (NewQueryOptions.WithContext (some { id := 7 }))) []).1 = .returned none) :=
  ChangeSchema_with_context mapScan slowSession "DROP TABLE ks1.tbl_numerics"
    (NewQueryOptions.WithContext (some { id := 7 })) { id := 7 } [] rfl rfl

end db

namespace db

theorem override_SerialConsistency (q : QueryOptions) (call : Override) :
    (q.override call).SerialConsistency = q.SerialConsistency := by
  cases call <;> rfl

theorem chain_SerialConsistency (calls : List Override) (q : QueryOptions) :
    (q.chain calls).SerialConsistency = q.SerialConsistency := by
  induction calls generalizing q with
  | nil => rfl
  | cons call rest ih =>
    show ((q.override call).chain rest).SerialConsistency = q.SerialConsistency
    rw [ih, override_SerialConsistency]

/-- C7: `NewQueryOptions` has Consistency LocalOne, SerialConsistency
LocalSerial, an empty UserOrRole, PageSize 0, no PageState and no Context;
after any finite chain of WithUserOrRole / WithConsistency / WithPageSize /
WithPageState / WithContext calls the SerialConsistency is still LocalSerial
and `ExecuteIter` with these options does not fail the serial-consistency
check but sends the statement; each builder call sets its own field and
leaves the other five as they were; `WithSerialConsistency` stores whatever
value it is given. -/
theorem NewQueryOptions_defaults_and_chains :
    NewQueryOptions =
        { UserOrRole := "", Consistency := gocql.LocalOne,
          SerialConsistency := gocql.LocalSerial, PageState := none, PageSize := 0,
          Context := none } ∧
    (∀ calls : List Override,
        (NewQueryOptions.chain calls).SerialConsistency = gocql.LocalSerial) ∧
    (∀ (mapScan : MapScan) (session : GoCqlSession) (query : String) (calls : List Override)
        (values : List Value) (log : List gocql.Event),
        (session.ExecuteIter mapScan query (some (NewQueryOptions.chain calls)) values log).1 ≠
            .error .invalidSerialConsistency ∧
          ∃ q : gocql.Query, q.stmt = query ∧
            (session.ExecuteIter mapScan query (some (NewQueryOptions.chain calls))
              values log).2 = log ++ [gocql.Event.iter q]) ∧
    (∀ (q : QueryOptions) (u : String), q.WithUserOrRole u =
        { UserOrRole := u, Consistency := q.Consistency,
          SerialConsistency := q.SerialConsistency, PageState := q.PageState,
          PageSize := q.PageSize, Context := q.Context }) ∧
    (∀ (q : QueryOptions) (c : gocql.Consistency), q.WithConsistency c =
        { UserOrRole := q.UserOrRole, Consistency := c,
          SerialConsistency := q.SerialConsistency, PageState := q.PageState,
          PageSize := q.PageSize, Context := q.Context }) ∧
    (∀ (q : QueryOptions) (n : Int), q.WithPageSize n =
        { UserOrRole := q.UserOrRole, Consistency := q.Consistency,
          SerialConsistency := q.SerialConsistency, PageState := q.PageState,
          PageSize := n, Context := q.Context }) ∧
    (∀ (q : QueryOptions) (st : Option (List UInt8)), q.WithPageState st =
        { UserOrRole := q.UserOrRole, Consistency := q.Consistency,
          SerialConsistency := q.SerialConsistency, PageState := st,
          PageSize := q.PageSize, Context := q.Context }) ∧
    (∀ (q : QueryOptions) (ctx : Option Ctx), q.WithContext ctx =
        { UserOrRole := q.UserOrRole, Consistency := q.Consistency,
          SerialConsistency := q.SerialConsistency, PageState := q.PageState,
          PageSize := q.PageSize, Context := ctx }) ∧
    (∀ (q : QueryOptions) (sc : gocql.SerialConsistency), q.WithSerialConsistency sc =
        { UserOrRole := q.UserOrRole, Consistency := q.Consistency,
          SerialConsistency := sc, PageState := q.PageState,
          PageSize := q.PageSize, Context := q.Context }) := by
  refine ⟨rfl, ?_, ?_, fun _ _ => rfl, fun _ _ => rfl, fun _ _ => rfl, fun _ _ => rfl,
    fun _ _ => rfl, fun _ _ => rfl⟩
  · intro calls
    rw [chain_SerialConsistency]
    rfl
  · intro mapScan session query calls values log
    have hv : (NewQueryOptions.chain calls).SerialConsistency = gocql.Serial ∨
        (NewQueryOptions.chain calls).SerialConsistency = gocql.LocalSerial := by
      right
      rw [chain_SerialConsistency]
      rfl
    rw [ExecuteIter_some_valid mapScan session query _ values log hv]
    exact ⟨newResultIterator_ne_invalid mapScan _, _, rfl, rfl⟩

/-- The loop returns the slice it was given, extended by the decoding of each
pending row in order. -/
theorem scanLoop_ok (mapScan : MapScan) (columns : List gocql.ColumnInfo) :
    ∀ (pending : List gocql.RawRow) (items out : List Row),
      scanLoop mapScan columns pending items = .ok out →
      ∃ decoded : List Row, out = items ++ decoded ∧
        decoded.map (Except.ok : Row → Except DriverError Row) =
          pending.map (mapScan columns) := by
  intro pending
  induction pending with
  | nil =>
    intro items out h
    simp only [scanLoop, Except.ok.injEq] at h
    exact ⟨[], by simp [h], rfl⟩
  | cons raw rest ih =>
    intro items out h
    unfold scanLoop at h
    cases hm : mapScan columns raw with
    | error e =>
      rw [hm] at h
      cases h
    | ok row =>
      rw [hm] at h
      obtain ⟨decoded, hout, hdec⟩ := ih (items ++ [row]) out h
      refine ⟨row :: decoded, ?_, ?_⟩
      · rw [hout]
        simp
      · simp [hdec, hm]

/-- The loop succeeds when every pending row decodes. -/
theorem scanLoop_total (mapScan : MapScan) (columns : List gocql.ColumnInfo) :
    ∀ (pending : List gocql.RawRow) (items : List Row),
      (∀ raw ∈ pending, ∃ row, mapScan columns raw = .ok row) →
      ∃ out, scanLoop mapScan columns pending items = .ok out := by
  intro pending
  induction pending with
  | nil =>
    intro items _
    exact ⟨items, rfl⟩
  | cons raw rest ih =>
    intro items h
    obtain ⟨row, hrow⟩ := h raw (List.mem_cons_self _ _)
    obtain ⟨out, hout⟩ := ih (items ++ [row]) (fun r hr => h r (List.mem_cons_of_mem _ hr))
    refine ⟨out, ?_⟩
    unfold scanLoop
    rw [hrow]
    exact hout

/-- A result set returned by `newResultIterator` holds the decoding of every
scanned row, in order, and the iterator's continuation token. -/
theorem newResultIterator_ok (mapScan : MapScan) (iter : gocql.Iter)
    (rs : goCqlResultIterator) (h : newResultIterator mapScan iter = .ok rs) :
    rs.pageState = iter.pageState ∧
      ∃ rows : List Row, rs.values = some rows ∧
        rows.map (Except.ok : Row → Except DriverError Row) =
          iter.rows.map (mapScan iter.columns) := by
  unfold newResultIterator at h
  simp only [gocql.Iter.Columns, gocql.Iter.Close, gocql.Iter.PageState] at h
  cases hl : scanLoop mapScan iter.columns iter.rows [] with
  | error e =>
    rw [hl] at h
    cases h
  | ok items =>
    rw [hl] at h
    cases hc : iter.closeErr with
    | some e =>
      rw [hc] at h
      cases h
    | none =>
      rw [hc] at h
      simp only [Except.ok.injEq] at h
      subst h
      obtain ⟨decoded, hout, hdec⟩ := scanLoop_ok mapScan iter.columns iter.rows [] items hl
      refine ⟨rfl, items, rfl, ?_⟩
      rw [hout]
      simpa using hdec

/-- C9: for an iterator whose rows all decode and which closes without error,
`newResultIterator` returns a result set whose Values() is a list that is not
nil, with one entry per scanned row, the i-th entry being the decoding of the
i-th scanned row (so an empty result gives the empty list), and whose
PageState() is the iterator's continuation token. -/
theorem newResultIterator_values_in_order (mapScan : MapScan) (iter : gocql.Iter)
    (hrows : ∀ raw ∈ iter.rows, ∃ row, mapScan iter.columns raw = .ok row)
    (hclose : iter.closeErr = none) :
    ∃ (rs : goCqlResultIterator) (rows : List Row),
      newResultIterator mapScan iter = .ok rs ∧
      rs.Values = some rows ∧
      rows.length = iter.rows.length ∧
      rows.map (Except.ok : Row → Except DriverError Row) =
        iter.rows.map (mapScan iter.columns) ∧
      (∀ (i : Nat) (raw : gocql.RawRow), iter.rows[i]? = some raw →
        ∃ row, rows[i]? = some row ∧ mapScan iter.columns raw = .ok row) ∧
      (iter.rows = [] → rs.Values = some []) ∧
      rs.PageState = iter.pageState := by
  obtain ⟨items, hitems⟩ := scanLoop_total mapScan iter.columns iter.rows [] hrows
  have hres : newResultIterator mapScan iter =
      .ok { pageState := iter.pageState, values := some items } := by
    unfold newResultIterator
    simp only [gocql.Iter.Columns, gocql.Iter.Close, gocql.Iter.PageState, hitems, hclose]
  obtain ⟨_, rows, hvals, hmap⟩ := newResultIterator_ok mapScan iter _ hres
  simp only [Option.some.injEq] at hvals
  subst hvals
  have hlen : items.length = iter.rows.length := by
    have := congrArg List.length hmap
    simpa using this
  refine ⟨_, items, hres, rfl, hlen, hmap, ?_, ?_, rfl⟩
  · intro i raw hraw
    have hi := congrArg (fun l => l[i]?) hmap
    simp only [List.getElem?_map, hraw, Option.map_some'] at hi
    cases hrow : items[i]? with
    | none =>
      rw [hrow] at hi
      cases hi
    | some row =>
      rw [hrow] at hi
      simp only [Option.map_some', Option.some.injEq] at hi
      exact ⟨row, rfl, hi.symm⟩
  · intro hempty
    rw [hempty] at hlen
    have : items = [] := List.length_eq_zero.mp hlen
    rw [this]
    rfl

end db

namespace db

theorem newResultIterator_values_in_order_witness :
    ∃ (rs : goCqlResultIterator) (rows : List Row),
      newResultIterator mapScan sampleIter = .ok rs ∧
      rs.Values = some rows ∧
      rows.length = sampleIter.rows.length ∧
      rows.map (Except.ok : Row → Except DriverError Row) =
        sampleIter.rows.map (mapScan sampleIter.columns) ∧
      (∀ (i : Nat) (raw : gocql.RawRow), sampleIter.rows[i]? = some raw →
        ∃ row, rows[i]? = some row ∧ mapScan sampleIter.columns raw = .ok row) ∧
      (sampleIter.rows = [] → rs.Values = some []) ∧
      rs.PageState = sampleIter.pageState :=
  newResultIterator_values_in_order mapScan sampleIter
    (by
      intro raw hraw
      simp only [sampleIter, List.mem_cons, List.mem_singleton, List.not_mem_nil,
        or_false] at hraw
      rcases hraw with h | h
      · exact ⟨_, by rw [h]; rfl⟩
      · exact ⟨_, by rw [h]; rfl⟩)
    rfl

theorem Row.get_set_same (m : Row) (k : String) (v : RowValue) :
    (m.set k v).get k = some v := by
  induction m with
  | nil => simp [Row.set, Row.get, List.lookup]
  | cons kv rest ih =>
    obtain ⟨k0, v0⟩ := kv
    unfold Row.set
    by_cases h : k0 = k
    · simp [h, Row.get, List.lookup]
    · have hb : (k == k0) = false := by
        simp only [beq_eq_false_iff_ne, ne_eq]
        exact fun e => h e.symm
      simp only [h, if_false, Row.get, List.lookup, hb]
      exact ih

theorem Row.get_set_other (m : Row) (k k1 : String) (v : RowValue) (hne : k1 ≠ k) :
    (m.set k v).get k1 = m.get k1 := by
  induction m with
  | nil =>
    have hb : (k1 == k) = false := by simpa using hne
    simp [Row.set, Row.get, List.lookup, hb]
  | cons kv rest ih =>
    obtain ⟨k0, v0⟩ := kv
    unfold Row.set
    by_cases h : k0 = k
    · subst h
      have hb : (k1 == k0) = false := by simpa using hne
      simp [Row.get, List.lookup, hb]
    · simp only [h, if_false, Row.get, List.lookup]
      cases hk : (k1 == k0) with
      | true => rfl
      | false => exact ih

/-- Columns stored after a name was written do not touch it unless they
carry the same name. -/
theorem mapScanFrom_get_of_no_later (k : String) :
    ∀ (columns : List gocql.ColumnInfo) (cells : gocql.RawRow) (mapped row : Row),
      mapScanFrom columns cells mapped = .ok row →
      (∀ c ∈ columns, c.Name ≠ k) → row.get k = mapped.get k := by
  intro columns
  induction columns with
  | nil =>
    intro cells mapped row h _
    cases cells with
    | nil =>
      simp only [mapScanFrom, Except.ok.injEq] at h
      rw [h]
    | cons c cs => simp [mapScanFrom] at h
  | cons column rest ih =>
    intro cells mapped row h hno
    cases cells with
    | nil => simp [mapScanFrom] at h
    | cons cell cs =>
      unfold mapScanFrom at h
      cases hd : decodeColumn column.TypeInfo cell with
      | error e =>
        rw [hd] at h
        cases h
      | ok v =>
        rw [hd] at h
        have h1 := ih cs (mapped.set column.Name v) row h
          (fun c hc => hno c (List.mem_cons_of_mem _ hc))
        rw [h1]
        exact Row.get_set_other mapped column.Name k v
          (fun e => hno column (List.mem_cons_self _ _) e.symm)

/-- A column without a stored value, whose name no later column repeats, is
found in the mapped row as the nil pointer of its mapped type. -/
theorem mapScanFrom_null_column :
    ∀ (columns : List gocql.ColumnInfo) (cells : gocql.RawRow) (mapped row : Row)
      (j : Nat) (col : gocql.ColumnInfo),
      mapScanFrom columns cells mapped = .ok row →
      columns[j]? = some col → cells[j]? = some none →
      (∀ (k : Nat) (c : gocql.ColumnInfo), j < k → columns[k]? = some c → c.Name ≠ col.Name) →
      row.get col.Name = some (rowEntry col.TypeInfo (.nil (mappedType col.TypeInfo))) := by
  intro columns
  induction columns with
  | nil =>
    intro cells mapped row j col _ hc
    simp at hc
  | cons column rest ih =>
    intro cells mapped row j col h hc hcell hlater
    cases cells with
    | nil => simp at hcell
    | cons cell cs =>
      unfold mapScanFrom at h
      cases hd : decodeColumn column.TypeInfo cell with
      | error e =>
        rw [hd] at h
        cases h
      | ok v =>
        rw [hd] at h
        cases j with
        | zero =>
          simp only [List.getElem?_cons_zero, Option.some.injEq] at hc hcell
          subst hc
          subst hcell
          simp only [decodeColumn, Except.ok.injEq] at hd
          have hrest : ∀ c ∈ rest, c.Name ≠ column.Name := by
            intro c hmem
            obtain ⟨n, hn⟩ := List.getElem?_of_mem hmem
            exact hlater (n + 1) c (Nat.succ_pos n) (by simpa using hn)
          rw [mapScanFrom_get_of_no_later column.Name rest cs _ row h hrest,
            Row.get_set_same, hd]
        | succ n =>
          simp only [List.getElem?_cons_succ] at hc hcell
          refine ih cs _ row n col h hc hcell ?_
          intro k c hk hkc
          exact hlater (k + 1) c (Nat.succ_lt_succ hk) (by simpa using hkc)

/-- C10 (amended): in every row of a result set returned by `ExecuteIter`
(with the row mapping of package db), a column of that row without a stored
value, whose name no later column of the row repeats, is found under its
name as follows.  For bigint, float, double, smallint and tinyint the entry
is the nil pointer of the column's mapped type.  For decimal the entry is a
pointer that is not nil and holds the nil pointer to a decimal.  In no case
is the entry, or what it points at, a value (zero included). -/
theorem ExecuteIter_null_columns (session : GoCqlSession) (query : String)
    (options : Option QueryOptions) (values : List Value) (log log1 : List gocql.Event)
    (rs : goCqlResultIterator)
    (h : session.ExecuteIter mapScan query options values log = (.ok rs, log1)) :
    ∃ (q : gocql.Query) (rows : List Row),
      log1 = log ++ [gocql.Event.iter q] ∧
      rs.Values = some rows ∧
      rows.length = (session.ref.run log q).rows.length ∧
      ∀ (i : Nat) (raw : gocql.RawRow) (row : Row),
        (session.ref.run log q).rows[i]? = some raw → rows[i]? = some row →
        ∀ (j : Nat) (col : gocql.ColumnInfo),
          (session.ref.run log q).columns[j]? = some col → raw[j]? = some none →
          (∀ (k : Nat) (c : gocql.ColumnInfo), j < k →
            (session.ref.run log q).columns[k]? = some c → c.Name ≠ col.Name) →
          ∃ v : RowValue, row.get col.Name = some v ∧
            (col.TypeInfo ≠ gocql.CqlType.TypeDecimal →
              v = RowValue.ptr (Ptr.nil (mappedType col.TypeInfo))) ∧
            (col.TypeInfo = gocql.CqlType.TypeDecimal →
              v = RowValue.ptrTo (Ptr.nil GoType.dec) ∧
              v ≠ RowValue.ptr (Ptr.nil GoType.dec)) ∧
            (∀ (ty : GoType) (s : Scalar),
              v ≠ RowValue.ptr (Ptr.to ty s) ∧ v ≠ RowValue.ptrTo (Ptr.to ty s)) := by
  rcases ExecuteIter_cases mapScan session query options values log with
    ⟨_, he⟩ | ⟨_, q, _, _, he⟩
  · rw [he] at h
    cases h
  · rw [he] at h
    simp only [Prod.mk.injEq] at h
    obtain ⟨hres, hlog⟩ := h
    obtain ⟨_, rows, hvals, hmap⟩ := newResultIterator_ok mapScan _ rs hres
    refine ⟨q, rows, hlog.symm, hvals, ?_, ?_⟩
    · have := congrArg List.length hmap
      simpa using this
    · intro i raw row hraw hrow j col hcol hcell hlater
      have hi := congrArg (fun l => l[i]?) hmap
      simp only [List.getElem?_map, hraw, hrow, Option.map_some', Option.some.injEq] at hi
      have hscan : mapScanFrom (session.ref.run log q).columns raw [] = .ok row := hi.symm
      have hget := mapScanFrom_null_column _ raw [] row j col hscan hcol hcell hlater
      refine ⟨_, hget, ?_, ?_, ?_⟩
      · intro hnd
        cases hty : col.TypeInfo <;> first | rfl | exact absurd hty hnd
      · intro hd
        rw [hd]
        exact ⟨rfl, by simp [rowEntry]⟩
      · intro ty s
        cases col.TypeInfo <;> simp [rowEntry]

end db

namespace db

theorem ExecuteIter_null_columns_witness :
    ∃ (q : gocql.Query) (rows : List Row),
      [gocql.Event.iter (sampleSession.ref.Query "SELECT * FROM ks1.tbl_numerics" []).NoSkipMetadata] =
        [] ++ [gocql.Event.iter q] ∧
      sampleResult.Values = some rows ∧
      rows.length = (sampleSession.ref.run [] q).rows.length ∧
      ∀ (i : Nat) (raw : gocql.RawRow) (row : Row),
        (sampleSession.ref.run [] q).rows[i]? = some raw → rows[i]? = some row →
        ∀ (j : Nat) (col : gocql.ColumnInfo),
          (sampleSession.ref.run [] q).columns[j]? = some col → raw[j]? = some none →
          (∀ (k : Nat) (c : gocql.ColumnInfo), j < k →
            (sampleSession.ref.run [] q).columns[k]? = some c → c.Name ≠ col.Name) →
          ∃ v : RowValue, row.get col.Name = some v ∧
            (col.TypeInfo ≠ gocql.CqlType.TypeDecimal →
              v = RowValue.ptr (Ptr.nil (mappedType col.TypeInfo))) ∧
            (col.TypeInfo = gocql.CqlType.TypeDecimal →
              v = RowValue.ptrTo (Ptr.nil GoType.dec) ∧
              v ≠ RowValue.ptr (Ptr.nil GoType.dec)) ∧
            (∀ (ty : GoType) (s : Scalar),
              v ≠ RowValue.ptr (Ptr.to ty s) ∧ v ≠ RowValue.ptrTo (Ptr.to ty s)) :=
  ExecuteIter_null_columns sampleSession "SELECT * FROM ks1.tbl_numerics" none [] []
    [gocql.Event.iter (sampleSession.ref.Query "SELECT * FROM ks1.tbl_numerics" []).NoSkipMetadata]
    sampleResult rfl

/-- C10 as first stated does not hold: it asks that every column without a
stored value be found under its name as the nil pointer of its mapped type.
(1) In the key-only row of the numeric table the decimal column has no
stored value, yet its entry is a pointer that is not nil (it holds the nil
pointer to a decimal).  (2) In a row whose two columns are both named x, the
first without a stored value and the second holding 5, the entry under x is
the pointer to 5.  Hence (3) the statement quantified over all results,
rows and columns is false. -/
theorem ExecuteIter_null_columns_counterexample :
    (sampleSession.ExecuteIter mapScan "SELECT * FROM ks1.tbl_numerics" none [] []).1 =
        .ok sampleResult ∧
      sampleIter.columns[5]? = some { Name := "decimal_value", TypeInfo := .TypeDecimal } ∧
      (sampleIter.rows[1]?).bind (fun raw => raw[5]?) = some none ∧
      (sampleResult.Values.bind (fun rows => rows[1]?)).bind
          (fun row => row.get "decimal_value") =
        some (RowValue.ptrTo (Ptr.nil GoType.dec)) ∧
      RowValue.ptrTo (Ptr.nil GoType.dec) ≠
        RowValue.ptr (Ptr.nil (mappedType gocql.CqlType.TypeDecimal)) ∧
    ((repeatedNameSession.ExecuteIter mapScan "SELECT a AS x, b AS x FROM ks1.t" none [] []).1 =
        .ok { pageState := none,
              values := some [[("x", RowValue.ptr (Ptr.to GoType.int8 (Scalar.int 8 5)))]] } ∧
      repeatedNameIter.columns[0]? = some { Name := "x", TypeInfo := .TypeTinyInt } ∧
      (repeatedNameIter.rows[0]?).bind (fun raw => raw[0]?) = some none ∧
      Row.get [("x", RowValue.ptr (Ptr.to GoType.int8 (Scalar.int 8 5)))] "x" ≠
        some (RowValue.ptr (Ptr.nil (mappedType gocql.CqlType.TypeTinyInt)))) ∧
    ¬ (∀ (session : GoCqlSession) (query : String) (options : Option QueryOptions)
        (values : List Value) (log log1 : List gocql.Event) (rs : goCqlResultIterator)
        (q : gocql.Query) (rows : List Row) (i : Nat) (raw : gocql.RawRow) (row : Row)
        (j : Nat) (col : gocql.ColumnInfo),
        session.ExecuteIter mapScan query options values log = (.ok rs, log1) →
        log1 = log ++ [gocql.Event.iter q] → rs.Values = some rows →
        (session.ref.run log q).rows[i]? = some raw → rows[i]? = some row →
        (session.ref.run log q).columns[j]? = some col → raw[j]? = some none →
        row.get col.Name = some (RowValue.ptr (Ptr.nil (mappedType col.TypeInfo)))) := by
  refine ⟨rfl, rfl, rfl, rfl, by decide, ⟨rfl, rfl, rfl, by decide⟩, ?_⟩
  intro hall
  have hrow := hall sampleSession "SELECT * FROM ks1.tbl_numerics" none [] []
    [gocql.Event.iter (sampleSession.ref.Query "SELECT * FROM ks1.tbl_numerics" []).NoSkipMetadata]
    sampleResult (sampleSession.ref.Query "SELECT * FROM ks1.tbl_numerics" []).NoSkipMetadata
    [ [ ("bigint_value", .ptr (.to .string (.str "1"))),
        ("float_value", .ptr (.to .float32 (.float 32 0x3F8CCCCD))),
        ("double_value", .ptr (.to .float64 (.float 64 0x3FF199999999999A))),
        ("smallint_value", .ptr (.to .int16 (.int 16 1))),
        ("tinyint_value", .ptr (.to .int8 (.int 8 1))),
        ("decimal_value", .ptrTo (.to .dec (.dec 125 2))) ],
      [ ("bigint_value", .ptr (.nil .string)),
        ("float_value", .ptr (.nil .float32)),
        ("double_value", .ptr (.nil .float64)),
        ("smallint_value", .ptr (.nil .int16)),
        ("tinyint_value", .ptr (.nil .int8)),
        ("decimal_value", .ptrTo (.nil .dec)) ] ]
    1 keyOnlyRow
    [ ("bigint_value", .ptr (.nil .string)),
      ("float_value", .ptr (.nil .float32)),
      ("double_value", .ptr (.nil .float64)),
      ("smallint_value", .ptr (.nil .int16)),
      ("tinyint_value", .ptr (.nil .int8)),
      ("decimal_value", .ptrTo (.nil .dec)) ]
    5 { Name := "decimal_value", TypeInfo := .TypeDecimal }
    rfl rfl rfl rfl rfl rfl rfl
  exact absurd hrow (by decide)

/-- The key-only row of the numeric table: every unset column reads as a nil
pointer, the decimal one behind one more pointer. -/
theorem keyOnlyRow_entries :
    mapScan numericColumns keyOnlyRow = .ok
      [ ("bigint_value", .ptr (.nil .string)), ("float_value", .ptr (.nil .float32)),
        ("double_value", .ptr (.nil .float64)), ("smallint_value", .ptr (.nil .int16)),
        ("tinyint_value", .ptr (.nil .int8)), ("decimal_value", .ptrTo (.nil .dec)) ] :=
  rfl

end db

namespace graphql

/-- An option contributes a data centre exactly when its value is a string
that `Atoi` reads; the data centre bears the option's key. -/
theorem dataCenterOf_eq_some (option : String × Value) (d : dataCenterValue) :
    dataCenterOf option = some d ↔
      ∃ s, option.2 = Value.text s ∧ strconv.Atoi s = some d.Replicas ∧ option.1 = d.Name := by
  obtain ⟨k, v⟩ := option
  obtain ⟨name, n⟩ := d
  cases v with
  | int i => simp [dataCenterOf]
  | slice vs => simp [dataCenterOf]
  | text s =>
    simp only [dataCenterOf, Option.map_eq_some', dataCenterValue.mk.injEq, Value.text.injEq]
    constructor
    · rintro ⟨c, hc, hk, hn⟩
      exact ⟨s, rfl, by rw [hc, hn], hk⟩
    · rintro ⟨s1, hs, ha, hk⟩
      subst hs
      exact ⟨n, ha, hk, rfl⟩

/-- Over a map whose values are all strings the loop never panics; it appends
the data centre of every option that has one, in the order visited. -/
theorem rangeStrategyOptions_of_strings (keyspaceName : String) :
    ∀ (pending : List (String × Value)) (dcs : List dataCenterValue) (logged : List LogEntry),
      (∀ kv ∈ pending, ∃ s, kv.2 = Value.text s) →
      ∃ logged1, rangeStrategyOptions keyspaceName pending dcs logged =
        .returned (dcs ++ pending.filterMap dataCenterOf, logged1) := by
  intro pending
  induction pending with
  | nil =>
    intro dcs logged _
    exact ⟨logged, by simp [rangeStrategyOptions]⟩
  | cons kv rest ih =>
    intro dcs logged h
    obtain ⟨dc, replicas⟩ := kv
    obtain ⟨s, hs⟩ := h (dc, replicas) (List.mem_cons_self _ _)
    simp only at hs
    subst hs
    have hrest : ∀ kv ∈ rest, ∃ s, kv.2 = Value.text s :=
      fun kv hkv => h kv (List.mem_cons_of_mem _ hkv)
    unfold rangeStrategyOptions
    cases ha : strconv.Atoi s with
    | none =>
      obtain ⟨l, hl⟩ := ih dcs
        (logged ++ [{ msg := "invalid replicas value for keyspace",
                      replicas := Value.text s, keyspace := keyspaceName }]) hrest
      refine ⟨l, ?_⟩
      have hnone : dataCenterOf (dc, Value.text s) = none := by simp [dataCenterOf, ha]
      rw [List.filterMap_cons, hnone]
      simp only [ha, hl]
    | some count =>
      obtain ⟨l, hl⟩ := ih (dcs ++ [{ Name := dc, Replicas := count }]) logged hrest
      refine ⟨l, ?_⟩
      have hsome : dataCenterOf (dc, Value.text s) = some { Name := dc, Replicas := count } := by
        simp [dataCenterOf, ha]
      rw [List.filterMap_cons, hsome]
      simp only [ha, hl, List.append_assoc, List.singleton_append]

/-- The names of the data centres built are among the option keys, in the
same order. -/
theorem dataCenter_names_sublist (options : List (String × Value)) :
    List.Sublist ((options.filterMap dataCenterOf).map dataCenterValue.Name)
      (options.map Prod.fst) := by
  induction options with
  | nil => simp
  | cons kv rest ih =>
    rw [List.filterMap_cons]
    cases hd : dataCenterOf kv with
    | none =>
      simp only [List.map_cons]
      exact List.Sublist.cons _ ih
    | some d =>
      obtain ⟨s, _, _, hk⟩ := (dataCenterOf_eq_some kv d).mp hd
      simp only [List.map_cons, hk]
      exact List.Sublist.cons₂ _ ih

end graphql

namespace graphql

/-- C11: for keyspace metadata whose strategy option values are all strings
(the options being a map, their keys are distinct), `buildKeyspaceValue`
returns a value whose Name is the keyspace name.  When the strategy class
contains "NetworkTopologyStrategy" its DCs hold the entry (key, n) exactly
for the options whose value `Atoi` reads as the integer n, once each and in
the order the options are visited, and nothing for an option whose value
`Atoi` rejects; so the names are free of duplicates and there are at most as
many entries as options.  When the strategy class does not contain
"NetworkTopologyStrategy" the DCs are the empty list. -/
theorem buildKeyspaceValue_data_centers (keyspace : gocql.KeyspaceMetadata)
    (hstrings : ∀ kv ∈ keyspace.StrategyOptions, ∃ s, kv.2 = Value.text s)
    (hkeys : (keyspace.StrategyOptions.map Prod.fst).Nodup) :
    ∃ (v : ksValue) (logged : List LogEntry),
      buildKeyspaceValue keyspace = .returned (v, logged) ∧
      v.Name = keyspace.Name ∧
      (strings.Contains keyspace.StrategyClass "NetworkTopologyStrategy" = true →
        (∀ (name : String) (n : Int),
          ({ Name := name, Replicas := n } : dataCenterValue) ∈ v.DCs ↔
            ∃ s, (name, Value.text s) ∈ keyspace.StrategyOptions ∧ strconv.Atoi s = some n) ∧
        (∀ (name s : String), (name, Value.text s) ∈ keyspace.StrategyOptions →
          strconv.Atoi s = none → ∀ d ∈ v.DCs, d.Name ≠ name) ∧
        v.DCs.Nodup ∧
        (v.DCs.map dataCenterValue.Name).Nodup ∧
        v.DCs.length ≤ keyspace.StrategyOptions.length ∧
        v.DCs = keyspace.StrategyOptions.filterMap dataCenterOf) ∧
      (strings.Contains keyspace.StrategyClass "NetworkTopologyStrategy" = false →
        v.DCs = []) := by
  cases hc : strings.Contains keyspace.StrategyClass "NetworkTopologyStrategy" with
  | false =>
    refine ⟨{ Name := keyspace.Name, DCs := [], keyspace := keyspace }, [], ?_, rfl, ?_, ?_⟩
    · simp [buildKeyspaceValue, hc]
    · intro h
      cases h
    · intro _
      rfl
  | true =>
    obtain ⟨logged, hloop⟩ :=
      rangeStrategyOptions_of_strings keyspace.Name keyspace.StrategyOptions [] [] hstrings
    have hnames : ((keyspace.StrategyOptions.filterMap dataCenterOf).map
        dataCenterValue.Name).Nodup :=
      List.Nodup.sublist (dataCenter_names_sublist keyspace.StrategyOptions) hkeys
    refine ⟨{ Name := keyspace.Name, DCs := keyspace.StrategyOptions.filterMap dataCenterOf,
              keyspace := keyspace }, logged, ?_, rfl, ?_, ?_⟩
    · simp only [buildKeyspaceValue, hc, if_true, hloop, List.nil_append]
    · intro _
      refine ⟨?_, ?_, List.Nodup.of_map _ hnames, hnames, List.length_filterMap_le _ _, rfl⟩
      · intro name n
        simp only [List.mem_filterMap]
        constructor
        · rintro ⟨kv, hmem, hd⟩
          obtain ⟨s, hs, ha, hk⟩ := (dataCenterOf_eq_some kv _).mp hd
          refine ⟨s, ?_, ha⟩
          obtain ⟨k, val⟩ := kv
          simp only at hs hk
          subst hs
          subst hk
          exact hmem
        · rintro ⟨s, hmem, ha⟩
          exact ⟨(name, Value.text s), hmem,
            (dataCenterOf_eq_some _ _).mpr ⟨s, rfl, ha, rfl⟩⟩
      · intro name s hmem hnone d hd hname
        simp only [List.mem_filterMap] at hd
        obtain ⟨kv, hkv, hdc⟩ := hd
        obtain ⟨s1, hs1, ha1, hk1⟩ := (dataCenterOf_eq_some kv d).mp hdc
        have hfst : kv.1 = (name, Value.text s).1 := by
          simp only
          rw [hk1, hname]
        have heq := List.inj_on_of_nodup_map hkeys hkv hmem hfst
        rw [heq] at hs1
        simp only [Value.text.injEq] at hs1
        rw [← hs1, hnone] at ha1
        cases ha1
    · intro h
      cases h

theorem buildKeyspaceValue_data_centers_witness :
    ∃ (v : ksValue) (logged : List LogEntry),
      buildKeyspaceValue sampleKeyspace = .returned (v, logged) ∧
      v.Name = sampleKeyspace.Name ∧
      (strings.Contains sampleKeyspace.StrategyClass "NetworkTopologyStrategy" = true →
        (∀ (name : String) (n : Int),
          ({ Name := name, Replicas := n } : dataCenterValue) ∈ v.DCs ↔
            ∃ s, (name, Value.text s) ∈ sampleKeyspace.StrategyOptions ∧
              strconv.Atoi s = some n) ∧
        (∀ (name s : String), (name, Value.text s) ∈ sampleKeyspace.StrategyOptions →
          strconv.Atoi s = none → ∀ d ∈ v.DCs, d.Name ≠ name) ∧
        v.DCs.Nodup ∧
        (v.DCs.map dataCenterValue.Name).Nodup ∧
        v.DCs.length ≤ sampleKeyspace.StrategyOptions.length ∧
        v.DCs = sampleKeyspace.StrategyOptions.filterMap dataCenterOf) ∧
      (strings.Contains sampleKeyspace.StrategyClass "NetworkTopologyStrategy" = false →
        v.DCs = []) :=
  buildKeyspaceValue_data_centers sampleKeyspace
    (by
      intro kv hkv
      simp only [sampleKeyspace, List.mem_cons, List.mem_singleton, List.not_mem_nil,
        or_false] at hkv
      rcases hkv with h | h | h <;> exact ⟨_, by rw [h]⟩)
    (by decide)

/-- The sample keyspace: two of its three options hold a number, the third
is logged and left out. -/
theorem buildKeyspaceValue_sampleKeyspace :
    buildKeyspaceValue sampleKeyspace =
      .returned
        ({ Name := "ks1", DCs := [{ Name := "dc1", Replicas := 3 }, { Name := "dc3", Replicas := 1 }],
           keyspace := sampleKeyspace },
         [{ msg := "invalid replicas value for keyspace", replicas := Value.text "three",
            keyspace := "ks1" }]) ∧
    (∃ logged, buildKeyspaceValue simpleKeyspace =
      .returned ({ Name := "system_auth", DCs := [], keyspace := simpleKeyspace }, logged)) :=
  ⟨rfl, [], rfl⟩

end graphql
